import Mathlib

/-!
Verification of the RatInABox core (ratinabox.py): the geometry kernel,
the `Environment` class and the `Agent` motion simulator.

The Python source computes with numpy floating point arrays; the embedding
models scalars as elements of a linear ordered field (instantiated at ℚ for
executable witnesses and at ℝ where the code takes square roots), positions
as lists of scalars (numpy 1-d arrays) and walls as pairs of 2-d points.
The batch (N x M) operations of the source are embedded pairwise, since
every batch operation of the source acts elementwise on position pairs.

The source adds a tiny random perturbation (scale 1e-6) inside
`vector_intercepts` and `shortest_vectors_from_points_to_lines` purely to
avoid division by zero on exactly parallel segments.  Following the spec's
design note ("a reimplementation should instead detect near-zero
denominators explicitly and treat such pairs as non-intersecting, for
determinism"), the embedding is deterministic: a zero denominator yields
parameter 0 (division by zero in a field), which the strict (0,1) collision
test rejects, so exactly parallel or degenerate segment pairs never collide.

Randomness in the `Agent` motion model (the normal draws feeding the
Ornstein-Uhlenbeck increments) is passed in explicitly through
`UpdateInputs`; the scipy normal cdf/ppf used by `rayleigh_to_normal` /
`normal_to_rayleigh` and the imported-trajectory interpolator (an external
collaborator per the spec) are passed as function parameters in
`ExternalFunctions`.
-/

set_option linter.unusedVariables false

namespace RatInABox

variable {α : Type} [LinearOrderedField α]

/-- A wall / line segment: a pair of 2-d endpoints (`[[x1,y1],[x2,y2]]` in the source). -/
abbrev Seg (α : Type) := (α × α) × (α × α)

/-- Componentwise addition of 2-d points. -/
def padd (a b : α × α) : α × α := (a.1 + b.1, a.2 + b.2)

/-- Componentwise subtraction of 2-d points. -/
def psub (a b : α × α) : α × α := (a.1 - b.1, a.2 - b.2)

/-- Componentwise negation of a 2-d point. -/
def pneg (a : α × α) : α × α := (-a.1, -a.2)

/-- Scalar multiplication of a 2-d point. -/
def psmul (c : α) (a : α × α) : α × α := (c * a.1, c * a.2)

/-- Division of a 2-d point by a scalar (numpy broadcast `a / c`). -/
def pdiv (a : α × α) (c : α) : α × α := (a.1 / c, a.2 / c)

/-- Dot product of 2-d vectors. -/
def pdot (a b : α × α) : α := a.1 * b.1 + a.2 * b.2

/-- Squared euclidean norm of a 2-d vector. -/
def norm2 (a : α × α) : α := a.1 ^ 2 + a.2 ^ 2

/-- `get_perpendicular`: rotate a 2-vector by 90 degrees, `[x,y] -> [-y,x]`. -/
def get_perpendicular (a : α × α) : α × α := (-a.2, a.1)

/-- First two entries of a position list as a 2-d point (`pos[0]`, `pos[1]`). -/
def pl2 (p : List α) : α × α := (p.getD 0 0, p.getD 1 0)

/-- `np.sign`. -/
def npsign (x : α) : α := if x < 0 then -1 else if 0 < x then 1 else 0

/-- Python float `%` (sign follows the divisor): `a - b * floor (a / b)`. -/
def pymod [FloorRing α] (a b : α) : α := a - b * ((Int.floor (a / b) : ℤ) : α)

/-- The pair of path parameters `(l_a, l_b)` computed by `vector_intercepts`
for one segment pair, via the perpendicular-dot-product formulation
`l_a = dot(d0, sb_p) / dot(sa, sb_p)`, `l_b = dot(-d0, sa_p) / dot(sb, sa_p)`.
A zero denominator (exactly parallel or degenerate segments) yields 0. -/
def intercept_parameters (a b : Seg α) : α × α :=
  let d0 := psub b.1 a.1
  let sa := psub a.2 a.1
  let sb := psub b.2 b.1
  let sa_p := get_perpendicular sa
  let sb_p := get_perpendicular sb
  (pdot d0 sb_p / pdot sa sb_p, pdot (pneg d0) sa_p / pdot sb sa_p)

/-- `vector_intercepts(..., return_collisions=True)` for one segment pair:
true iff both path parameters lie strictly inside (0, 1). -/
def segments_collide (a b : Seg α) : Bool :=
  let i := intercept_parameters a b
  decide (0 < i.1 ∧ i.1 < 1 ∧ 0 < i.2 ∧ i.2 < 1)

/-- `get_vectors_between`: pairwise vectors from `pos1` to `pos2`
(the source returns `line_segments[...,0,:] - line_segments[...,1,:]`,
that is `pos1 - pos2`, componentwise). -/
def get_vectors_between (pos1 pos2 : List α) : List α :=
  List.zipWith (fun x y => x - y) pos1 pos2

/-- `shortest_vectors_from_points_to_lines` for a single query point:
for each wall, project the point onto the wall's infinite line
(`l = dot(d,s)/dot(s,s)`), clamp `l` to [0,1], and return the vector from
the clamped projected point to the query point. -/
def shortest_vectors_from_points_to_lines (position : α × α) (vectors : List (Seg α)) :
    List (α × α) :=
  vectors.map (fun w =>
    let d := psub position w.1
    let s := psub w.2 w.1
    let l := pdot d s / pdot s s
    let l2 := if 1 < l then 1 else if l < 0 then 0 else l
    psub position (padd w.1 (psmul l2 s)))

/-- Environment dimensionality ("1D" / "2D"). -/
inductive Dim where
  | oneD : Dim
  | twoD : Dim
deriving DecidableEq

/-- Boundary conditions ("solid" / "periodic"). -/
inductive BC where
  | solid : BC
  | periodic : BC
deriving DecidableEq

/-- The `Environment` class: arena shape, boundary-condition policy and the
ordered wall list. -/
structure Environment (α : Type) where
  dimensionality : Dim
  boundary_conditions : BC
  scale : α
  aspect : α
  extent : List α
  walls : List (Seg α)

/-- `Environment.__init__`: a 1D environment has extent `[0, scale]` and no
walls; a 2D environment has extent `[0, aspect*scale, 0, scale]` and, except
under periodic boundary conditions, the four bounding-rectangle walls. -/
def mkEnvironment (dim : Dim) (bc : BC) (scale aspect : α) : Environment α :=
  { dimensionality := dim
    boundary_conditions := bc
    scale := scale
    aspect := aspect
    extent :=
      match dim with
      | Dim.oneD => [0, scale]
      | Dim.twoD => [0, aspect * scale, 0, scale]
    walls :=
      match dim, bc with
      | Dim.twoD, BC.solid =>
          [((0, 0), (0, scale)),
           ((0, scale), (aspect * scale, scale)),
           ((aspect * scale, scale), (aspect * scale, 0)),
           ((aspect * scale, 0), (0, 0))]
      | _, _ => [] }

/-- `Environment.add_wall`: asserts the environment is 2D before touching
the wall array, then appends the new wall; on assertion failure no state
has been mutated (the error carries no successor environment). -/
def add_wall (env : Environment α) (wall : Seg α) : Except String (Environment α) :=
  if env.dimensionality = Dim.twoD then
    Except.ok { env with walls := env.walls ++ [wall] }
  else
    Except.error "can only add walls into a 2D environment"

/-- `Environment.get_vectors_between___accounting_for_environment`:
raw pairwise vectors, then under periodic boundary conditions every
component with `|v| > scale/2` is replaced by `-sign(v) * (scale - |v|)`. -/
def get_vectors_between___accounting_for_environment (env : Environment α)
    (pos1 pos2 : List α) : List α :=
  let vectors := get_vectors_between pos1 pos2
  if env.boundary_conditions = BC.periodic then
    vectors.map (fun v =>
      if env.scale / 2 < |v| then -(npsign v) * (env.scale - |v|) else v)
  else
    vectors

/-- `Environment.check_if_position_is_in_environment`: strict interior test
against the extent; points exactly on the edge are not inside. -/
def check_if_position_is_in_environment (env : Environment α) (pos : List α) : Bool :=
  match env.dimensionality with
  | Dim.twoD =>
      decide (env.extent.getD 0 0 < pos.getD 0 0 ∧ pos.getD 0 0 < env.extent.getD 1 0
        ∧ env.extent.getD 2 0 < pos.getD 1 0 ∧ pos.getD 1 0 < env.extent.getD 3 0)
  | Dim.oneD =>
      decide (env.extent.getD 0 0 < pos.getD 0 0 ∧ pos.getD 0 0 < env.extent.getD 1 0)

/-- `Environment.check_wall_collisions`: `(None, None)` for 1D environments
or environments with no walls; otherwise the wall list together with the
boolean list telling which walls the proposed step crosses
(`vector_intercepts(walls, proposed_step, return_collisions=True)`). -/
def check_wall_collisions (env : Environment α) (proposed_step : Seg α) :
    Option (List (Seg α)) × Option (List Bool) :=
  match env.dimensionality with
  | Dim.oneD => (none, none)
  | Dim.twoD =>
      if env.walls.length = 0 then (none, none)
      else (some env.walls,
            some (env.walls.map (fun w => segments_collide w proposed_step)))

/-- `Environment.vectors_from_walls`: shortest vectors from every wall to `pos`. -/
def vectors_from_walls (env : Environment α) (pos : α × α) : List (α × α) :=
  shortest_vectors_from_points_to_lines pos env.walls

/-- `Environment.apply_boundary_conditions`: positions already inside are
returned unchanged; outside positions are wrapped modulo the extent span
(periodic) or clamped 1 cm inside the extent (solid). -/
def apply_boundary_conditions [FloorRing α] (env : Environment α) (pos : List α) : List α :=
  if check_if_position_is_in_environment env pos = true then pos
  else
    match env.dimensionality, env.boundary_conditions with
    | Dim.oneD, BC.periodic =>
        [pymod (pos.getD 0 0) (env.extent.getD 1 0)]
    | Dim.oneD, BC.solid =>
        [min (max (pos.getD 0 0) (env.extent.getD 0 0 + 1 / 100))
          (env.extent.getD 1 0 - 1 / 100)]
    | Dim.twoD, BC.periodic =>
        [pymod (pos.getD 0 0) (env.extent.getD 1 0),
         pymod (pos.getD 1 0) (env.extent.getD 3 0)]
    | Dim.twoD, BC.solid =>
        [min (max (pos.getD 0 0) (env.extent.getD 0 0 + 1 / 100))
          (env.extent.getD 1 0 - 1 / 100),
         min (max (pos.getD 1 0) (env.extent.getD 2 0 + 1 / 100))
          (env.extent.getD 3 0 - 1 / 100)]

/-! Distance queries.  `np.linalg.norm` takes a real square root, so the
distance-valued operations are embedded at `ℝ`. -/

/-- `np.linalg.norm` over the last axis: euclidean norm of a vector given as
a list of components. -/
noncomputable def lnorm (v : List ℝ) : ℝ :=
  Real.sqrt ((v.map (fun x => x ^ 2)).sum)

/-- Global `get_distances_between` for a single position pair: euclidean
norm of the raw difference vector. -/
noncomputable def get_distances_between (pos1 pos2 : List ℝ) : ℝ :=
  lnorm (get_vectors_between pos1 pos2)

/-- The wall geometries accepted by
`get_distances_between___accounting_for_environment`. -/
inductive WallGeometry where
  | euclidean : WallGeometry
  | line_of_sight : WallGeometry
  | geodesic : WallGeometry
deriving DecidableEq

/-- `Environment.get_distances_between___accounting_for_environment` for a
single position pair.  The assertions of the source (line-of-sight and
geodesic require solid boundaries; geodesic requires at most 5 walls) are
modelled as `Except.error` results carrying the source's assertion
messages; the `np.amin` of an empty via-wall-distance list (both endpoints
of the interior wall on or outside the boundary) raises in numpy and is
modelled as an error as well. -/
noncomputable def get_distances_between___accounting_for_environment
    (env : Environment ℝ) (pos1 pos2 : List ℝ) (wall_geometry : WallGeometry) :
    Except String ℝ :=
  let vectors := get_vectors_between___accounting_for_environment env pos1 pos2
  match env.dimensionality with
  | Dim.oneD => Except.ok (lnorm vectors)
  | Dim.twoD =>
    match wall_geometry with
    | WallGeometry.euclidean => Except.ok (lnorm vectors)
    | WallGeometry.line_of_sight =>
        if env.boundary_conditions = BC.solid then
          let internal_walls := env.walls.drop 4
          let line_segment : Seg ℝ := (pl2 pos1, pl2 pos2)
          let wall_obstructs_view_of_cell :=
            (internal_walls.map
              (fun w => if segments_collide line_segment w then (1 : ℕ) else 0)).sum
          Except.ok (if wall_obstructs_view_of_cell ≠ 0 then 1000 else lnorm vectors)
        else
          Except.error "line of sight geometry not available for periodic boundary conditions"
    | WallGeometry.geodesic =>
        if env.boundary_conditions = BC.solid then
          if env.walls.length ≤ 5 then
            let distances := lnorm vectors
            if env.walls.length = 4 then Except.ok distances
            else
              let wall := env.walls.getD 4 ((0, 0), (0, 0))
              let via_wall_distances :=
                ([wall.1, wall.2].filter
                    (fun e => check_if_position_is_in_environment env [e.1, e.2])).map
                  (fun e => get_distances_between pos1 [e.1, e.2]
                    + get_distances_between [e.1, e.2] pos2)
              let line_segment : Seg ℝ := (pl2 pos1, pl2 pos2)
              match via_wall_distances with
              | [] => Except.error "zero-size array to reduction operation minimum which has no identity"
              | d :: ds =>
                  Except.ok (if segments_collide line_segment wall then ds.foldl min d
                    else distances)
          else
            Except.error "unfortunately geodesic geomtry is only defined in closed rooms with one additional wall"
        else
          Except.error "line of sight geometry not available for periodic boundary conditions"

/-! The `Agent` motion simulator. -/

/-- `wall_bounce`: reflect a velocity about a wall by decomposing into
components parallel and perpendicular to the wall (each sign-flipped to
have positive dot product with the incoming velocity, then normalised) and
recombining with the perpendicular component negated. -/
noncomputable def wall_bounce (current_velocity : List ℝ) (wall : Seg ℝ) : List ℝ :=
  let v := pl2 current_velocity
  let wall_perp0 := get_perpendicular (psub wall.2 wall.1)
  let wall_perp := if pdot wall_perp0 v ≤ 0 then pneg wall_perp0 else wall_perp0
  let wall_par0 := psub wall.2 wall.1
  let wall_par := if pdot wall_par0 v ≤ 0 then pneg wall_par0 else wall_par0
  let wall_par_n := pdiv wall_par (Real.sqrt (norm2 wall_par))
  let wall_perp_n := pdiv wall_perp (Real.sqrt (norm2 wall_perp))
  let new_velocity :=
    psub (psmul (pdot v wall_par_n) wall_par_n) (psmul (pdot v wall_perp_n) wall_perp_n)
  [new_velocity.1, new_velocity.2]

/-- `ornstein_uhlenbeck`: one OU increment.  `noise` is the externally
drawn `np.random.normal(size=..., scale=dt)` sample. -/
noncomputable def ornstein_uhlenbeck (dt x drift noise_scale coherence_time noise : ℝ) : ℝ :=
  let sigma := Real.sqrt ((2 * noise_scale ^ 2) / (coherence_time * dt))
  let theta := 1 / coherence_time
  theta * (drift - x) * dt + sigma * noise

/-- `rotate`: rotate a 2-d vector by angle `theta`. -/
noncomputable def rotate (vector : List ℝ) (theta : ℝ) : List ℝ :=
  let v := pl2 vector
  [Real.cos theta * v.1 - Real.sin theta * v.2,
   Real.sin theta * v.1 + Real.cos theta * v.2]

/-- `np.arctan2`. -/
noncomputable def arctan2 (y x : ℝ) : ℝ :=
  if 0 < x then Real.arctan (y / x)
  else if x < 0 then
    (if 0 ≤ y then Real.arctan (y / x) + Real.pi else Real.arctan (y / x) - Real.pi)
  else
    (if 0 < y then Real.pi / 2 else if y < 0 then -(Real.pi / 2) else 0)

/-- `get_angle` for a 2-d direction vector: `arctan2(y, x + 1e-6) mod 2*pi`. -/
noncomputable def get_angle (segment : List ℝ) : ℝ :=
  pymod (arctan2 (segment.getD 1 0) (segment.getD 0 0 + 1 / 1000000)) (2 * Real.pi)

/-- `normal_to_rayleigh`; `normcdf` is scipy's standard normal cdf
(an external special function, passed in as a parameter). -/
noncomputable def normal_to_rayleigh (normcdf : ℝ → ℝ) (x sigma : ℝ) : ℝ :=
  sigma * Real.sqrt (-2 * Real.log (1 - normcdf x))

/-- `rayleigh_to_normal`; `normppf` is scipy's standard normal quantile
function (an external special function, passed in as a parameter). -/
noncomputable def rayleigh_to_normal (normppf : ℝ → ℝ) (x sigma : ℝ) : ℝ :=
  let x1 := if x ≤ 0 then 1 / 1000000 else x
  let x2 := if 1 ≤ x1 then 1 - 1 / 1000000 else x1
  normppf (1 - Real.exp (-(x2 ^ 2) / (2 * sigma ^ 2)))

/-- Scalar multiplication of a component list. -/
def lsmul (c : α) (v : List α) : List α := v.map (fun x => c * x)

/-- Division of a component list by a scalar. -/
def ldiv (v : List α) (c : α) : List α := v.map (fun x => x / c)

/-- `pos + velocity * dt`, componentwise. -/
def step_add (pos velocity : List α) (dt : α) : List α :=
  List.zipWith (fun p v => p + v * dt) pos velocity

/-- Agent configuration parameters (the defaults dictionary of `Agent.__init__`). -/
structure AgentParams where
  speed_coherence_time : ℝ
  speed_mean : ℝ
  speed_std : ℝ
  rotational_velocity_coherence_time : ℝ
  rotational_velocity_std : ℝ
  thigmotaxis : ℝ

/-- The agent's history dictionary. -/
structure History where
  t : List ℝ
  pos : List (List ℝ)
  vel : List (List ℝ)
  rot_vel : List ℝ

/-- The mutable attributes of an `Agent`. -/
structure AgentState where
  pos : List ℝ
  velocity : List ℝ
  rotational_velocity : ℝ
  t : ℝ
  dt : ℝ
  distance_travelled : ℝ
  average_measured_speed : ℝ
  use_imported_trajectory : Bool
  walls_repel : Bool
  wall_repel_distance : ℝ
  history : History

/-- The per-call inputs of `Agent.update`: the optional step size and drift
velocity arguments, and the normal draws consumed by the OU increments. -/
structure UpdateInputs where
  dt : Option ℝ
  rotational_noise : ℝ
  speed_noise : ℝ
  velocity_noise : List ℝ
  drift_velocity : Option (List ℝ)
  drift_to_random_strength_ratio : ℝ

/-- External collaborators of the motion model: scipy's standard normal
cdf/ppf (used by the rayleigh conversions) and the imported-trajectory
interpolator `pos_interp` with its time span `max(t_interp)`. -/
structure ExternalFunctions where
  normcdf : ℝ → ℝ
  normppf : ℝ → ℝ
  pos_interp : ℝ → List ℝ
  t_interp_max : ℝ

/-- Lines 621-639 of `Agent.update`: propose `pos + velocity*dt`, test the
step against all walls; with no collision commit the proposed position,
otherwise take the first colliding wall in storage order
(`np.argwhere(wall_collisions == True)[0][0]`), reflect the velocity about
it with `wall_bounce`, rescale the reflected velocity to half the mean
speed, and advance by the new velocity; the post-reflection segment is not
re-checked for a second collision. -/
noncomputable def collision_update (env : Environment ℝ) (speed_mean dt : ℝ)
    (pos velocity : List ℝ) : List ℝ × List ℝ :=
  let proposed_new_pos := step_add pos velocity dt
  let proposed_step : Seg ℝ := (pl2 pos, pl2 proposed_new_pos)
  let wall_check := check_wall_collisions env proposed_step
  match wall_check.2 with
  | none => (step_add pos velocity dt, velocity)
  | some wall_collisions =>
      if true ∈ wall_collisions then
        let walls := wall_check.1.getD []
        let colliding_wall :=
          walls.getD (wall_collisions.findIdx (fun b => b)) ((0, 0), (0, 0))
        let v1 := wall_bounce velocity colliding_wall
        let v2 := lsmul (0.5 * speed_mean / lnorm v1) v1
        (step_add pos v2 dt, v2)
      else
        (step_add pos velocity dt, velocity)

/-- `Agent.update`: advance time by `dt` and update position and velocity
(stochastic policy in 2D or 1D, or imported-trajectory playback), then
update the travelled distance and average speed and append exactly one
entry to each history list (`rot_vel` only for 2D environments).
The branch bodies follow the source line by line; `core` is the tuple
`(pos, velocity, rotational_velocity, save_velocity)` after the
mode-specific part of the update. -/
noncomputable def Agent.update (env : Environment ℝ) (p : AgentParams)
    (o : ExternalFunctions) (s : AgentState) (u : UpdateInputs) : AgentState :=
  let dt := u.dt.getD s.dt
  let t := s.t + dt
  let core : List ℝ × List ℝ × ℝ × List ℝ :=
    if s.use_imported_trajectory = false then
      match env.dimensionality with
      | Dim.twoD =>
          let rotational_velocity := s.rotational_velocity +
            ornstein_uhlenbeck dt s.rotational_velocity 0 p.rotational_velocity_std
              p.rotational_velocity_coherence_time u.rotational_noise
          let dtheta := rotational_velocity * dt
          let velocity1 := rotate s.velocity dtheta
          let speed := lnorm velocity1
          let normal_variable := rayleigh_to_normal o.normppf speed p.speed_mean
          let new_normal_variable := normal_variable +
            ornstein_uhlenbeck dt normal_variable 0 1 p.speed_coherence_time u.speed_noise
          let speed_new := normal_to_rayleigh o.normcdf new_normal_variable p.speed_mean
          let velocity2 := lsmul (speed_new / speed) velocity1
          let velocity3 :=
            match u.drift_velocity with
            | none => velocity2
            | some dv =>
                List.zipWith (fun x d => x +
                  ornstein_uhlenbeck dt x d 0
                    (p.speed_coherence_time / u.drift_to_random_strength_ratio) 0)
                  velocity2 dv
          let vp : List ℝ × List ℝ :=
            if s.walls_repel = true ∧ env.walls ≠ [] then
              let vfw := vectors_from_walls env (pl2 s.pos)
              let x := vfw.map (fun w => Real.sqrt (norm2 w))
              let normalised_vectors_from_walls :=
                List.zipWith (fun w xi => pdiv w xi) vfw x
              let d := s.wall_repel_distance
              let v := p.speed_mean
              let spring_constant := v ^ 2 / d ^ 2
              let wall_accelerations :=
                x.map (fun xi => if xi ≤ d then spring_constant * (d - xi) else 0)
              let wall_acceleration :=
                (List.zipWith (fun a nw => psmul a nw) wall_accelerations
                  normalised_vectors_from_walls).foldl padd (0, 0)
              let dv := psmul dt wall_acceleration
              let velocity4 := List.zipWith (fun a b => a + b) velocity3
                [3 * (1 - p.thigmotaxis) ^ 2 * dv.1, 3 * (1 - p.thigmotaxis) ^ 2 * dv.2]
              let wall_speeds :=
                x.map (fun xi =>
                  if xi ≤ d then v * (1 - Real.sqrt (1 - (d - xi) ^ 2 / d ^ 2)) else 0)
              let wall_speed :=
                (List.zipWith (fun a nw => psmul a nw) wall_speeds
                  normalised_vectors_from_walls).foldl padd (0, 0)
              let dx := psmul dt wall_speed
              let pos1 := List.zipWith (fun a b => a + b) s.pos
                [6 * p.thigmotaxis ^ 2 * dx.1, 6 * p.thigmotaxis ^ 2 * dx.2]
              (velocity4, pos1)
            else (velocity3, s.pos)
          let pr := collision_update env p.speed_mean dt vp.2 vp.1
          let pos2 := pr.1
          let velocity5 := pr.2
          let pos3 :=
            if check_if_position_is_in_environment env pos2 = true then pos2
            else apply_boundary_conditions env pos2
          let save_velocity :=
            if 1 ≤ s.history.vel.length then
              ldiv (get_vectors_between___accounting_for_environment env pos3
                (s.history.pos.getLastD [])) dt
            else velocity5
          (pos3, velocity5, rotational_velocity, save_velocity)
      | Dim.oneD =>
          let pos1 := List.zipWith (fun x v => x + dt * v) s.pos s.velocity
          let pv : List ℝ × List ℝ :=
            if check_if_position_is_in_environment env pos1 = true then (pos1, s.velocity)
            else
              let velocity1 :=
                if env.boundary_conditions = BC.solid then lsmul (-1) s.velocity
                else s.velocity
              (apply_boundary_conditions env pos1, velocity1)
          let velocity2 := List.zipWith (fun x n => x +
              ornstein_uhlenbeck dt x p.speed_mean p.speed_std p.speed_coherence_time n)
            pv.2 u.velocity_noise
          (pv.1, velocity2, s.rotational_velocity, velocity2)
    else
      match env.dimensionality with
      | Dim.twoD =>
          let interp_time := pymod t o.t_interp_max
          let posI := o.pos_interp interp_time
          let ex := env.extent
          let pos1 := [min (max (posI.getD 0 0) (ex.getD 0 0)) (ex.getD 1 0),
                       min (max (posI.getD 1 0) (ex.getD 2 0)) (ex.getD 3 0)]
          let velocity1 :=
            if 1 ≤ s.history.vel.length then
              ldiv (get_vectors_between___accounting_for_environment env pos1
                (s.history.pos.getLastD [])) dt
            else [0, 0]
          let angle_now0 := get_angle velocity1
          let angle_before0 :=
            if 1 ≤ s.history.vel.length then get_angle (s.history.vel.getLastD [])
            else angle_now0
          let ab : ℝ × ℝ :=
            if Real.pi < |angle_now0 - angle_before0| then
              if angle_before0 < angle_now0 then (angle_now0 - 2 * Real.pi, angle_before0)
              else if angle_now0 < angle_before0 then (angle_now0, angle_before0 - 2 * Real.pi)
              else (angle_now0, angle_before0)
            else (angle_now0, angle_before0)
          let rotational_velocity := (ab.1 - ab.2) / dt
          (pos1, velocity1, rotational_velocity, velocity1)
      | Dim.oneD =>
          let interp_time := pymod t o.t_interp_max
          let posI := o.pos_interp interp_time
          let ex := env.extent
          let pos1 := [min (max (posI.getD 0 0) (ex.getD 0 0)) (ex.getD 1 0)]
          let velocity1 :=
            if 1 ≤ s.history.vel.length then
              ldiv (List.zipWith (fun a b => a - b) pos1 (s.history.pos.getLastD [])) dt
            else [0]
          (pos1, velocity1, s.rotational_velocity, velocity1)
  let pos := core.1
  let velocity := core.2.1
  let rotational_velocity := core.2.2.1
  let save_velocity := core.2.2.2
  let distance_travelled :=
    if 1 ≤ s.history.pos.length then
      s.distance_travelled
        + lnorm (List.zipWith (fun a b => a - b) pos (s.history.pos.getLastD []))
    else s.distance_travelled
  let average_measured_speed :=
    if 1 ≤ s.history.pos.length then
      (1 - dt / 10) * s.average_measured_speed + (dt / 10) * lnorm save_velocity
    else s.average_measured_speed
  { pos := pos
    velocity := velocity
    rotational_velocity := rotational_velocity
    t := t
    dt := dt
    distance_travelled := distance_travelled
    average_measured_speed := average_measured_speed
    use_imported_trajectory := s.use_imported_trajectory
    walls_repel := s.walls_repel
    wall_repel_distance := s.wall_repel_distance
    history :=
      { t := s.history.t ++ [t]
        pos := s.history.pos ++ [pos]
        vel := s.history.vel ++ [save_velocity]
        rot_vel :=
          if env.dimensionality = Dim.twoD then s.history.rot_vel ++ [rotational_velocity]
          else s.history.rot_vel } }

/-! Theorems. -/

/-- C1 (counterexample): the claim that every component of
`get_vectors_between___accounting_for_environment` has absolute value at
most `scale/2` for ALL positions fails for a 2D periodic environment with
aspect 2 (scale 1): the positions `[9/5, 1/2]` and `[1/10, 1/2]` are both
strictly inside the environment, yet the returned vector `[7/10, 0]` has a
component of absolute value `7/10 > scale/2 = 1/2` (the fold uses `scale`
for every component, also the x component whose span is `aspect*scale`). -/
theorem periodic_vector_fold_counterexample :
    check_if_position_is_in_environment
        (mkEnvironment Dim.twoD BC.periodic (1 : ℚ) 2) [9/5, 1/2] = true
    ∧ check_if_position_is_in_environment
        (mkEnvironment Dim.twoD BC.periodic (1 : ℚ) 2) [1/10, 1/2] = true
    ∧ get_vectors_between___accounting_for_environment
        (mkEnvironment Dim.twoD BC.periodic (1 : ℚ) 2) [9/5, 1/2] [1/10, 1/2]
        = [7/10, 0]
    ∧ (7 : ℚ)/10 ∈ get_vectors_between___accounting_for_environment
        (mkEnvironment Dim.twoD BC.periodic (1 : ℚ) 2) [9/5, 1/2] [1/10, 1/2]
    ∧ ¬ (|(7 : ℚ)/10| ≤ (mkEnvironment Dim.twoD BC.periodic (1 : ℚ) 2).scale / 2) := by
  have hbc : (mkEnvironment Dim.twoD BC.periodic (1 : ℚ) 2).boundary_conditions
      = BC.periodic := rfl
  have hscale : (mkEnvironment Dim.twoD BC.periodic (1 : ℚ) 2).scale = 1 := rfl
  have habs17 : |(17 : ℚ)/10| = 17/10 := abs_of_pos (by norm_num)
  have hveq : get_vectors_between___accounting_for_environment
      (mkEnvironment Dim.twoD BC.periodic (1 : ℚ) 2) [9/5, 1/2] [1/10, 1/2]
      = [7/10, 0] := by
    simp only [get_vectors_between___accounting_for_environment, get_vectors_between,
      List.zipWith, hbc, if_pos rfl, List.map, hscale]
    norm_num [habs17, npsign]
  refine ⟨?_, ?_, hveq, ?_, ?_⟩
  · norm_num [check_if_position_is_in_environment, mkEnvironment, List.getD]
  · norm_num [check_if_position_is_in_environment, mkEnvironment, List.getD]
  · rw [hveq]
    exact List.mem_cons_self _ _
  · intro h7
    rw [hscale] at h7
    rw [abs_of_pos (by norm_num : (0:ℚ) < 7/10)] at h7
    norm_num at h7

/-- C1 (amended): for a periodic environment with positive scale S, every
component of `get_vectors_between___accounting_for_environment(pos1,pos2)`
has absolute value at most `S/2`, PROVIDED every component of the raw
difference vector has absolute value at most `S` (as holds in 1D, and in
2D with aspect at most 1, whenever both positions lie in the environment;
it can fail for components spanning more than `S`, e.g. the x direction of
a 2D environment with aspect above 1). -/
theorem periodic_vector_fold_bounded {α : Type} [LinearOrderedField α]
    (env : Environment α) (pos1 pos2 : List α)
    (hbc : env.boundary_conditions = BC.periodic) (hs : 0 < env.scale)
    (hcomp : ∀ c ∈ get_vectors_between pos1 pos2, |c| ≤ env.scale) :
    ∀ c ∈ get_vectors_between___accounting_for_environment env pos1 pos2,
      |c| ≤ env.scale / 2 := by
  intro c hc
  unfold get_vectors_between___accounting_for_environment at hc
  rw [hbc, if_pos rfl, List.mem_map] at hc
  obtain ⟨c0, hc0, rfl⟩ := hc
  have h0 := hcomp c0 hc0
  by_cases hbig : env.scale / 2 < |c0|
  · rw [if_pos hbig]
    have hc0ne : c0 ≠ 0 := by
      intro h
      rw [h, abs_zero] at hbig
      linarith
    have hsgn : |npsign c0| = 1 := by
      unfold npsign
      rcases lt_trichotomy c0 0 with h | h | h
      · rw [if_pos h]
        simp
      · exact absurd h hc0ne
      · rw [if_neg (not_lt.mpr h.le), if_pos h]
        simp
    rw [abs_mul, abs_neg, hsgn, one_mul, abs_of_nonneg (by linarith : 0 ≤ env.scale - |c0|)]
    linarith
  · rw [if_neg hbig]
    linarith [not_lt.mp hbig]

/-- C1 (witness for the amended theorem): a 1D periodic environment of
scale 1 with positions `[9/10]` and `[1/10]`; the raw difference `4/5` is
folded to `-1/5`, whose absolute value is within `scale/2`. -/
theorem periodic_vector_fold_bounded_witness :
    |(-1/5 : ℚ)| ≤ (mkEnvironment Dim.oneD BC.periodic (1 : ℚ) 1).scale / 2 := by
  have hscale : (mkEnvironment Dim.oneD BC.periodic (1 : ℚ) 1).scale = 1 := rfl
  have hbc : (mkEnvironment Dim.oneD BC.periodic (1 : ℚ) 1).boundary_conditions
      = BC.periodic := rfl
  have habs : |(4 : ℚ)/5| = 4/5 := abs_of_pos (by norm_num)
  have hout : get_vectors_between___accounting_for_environment
      (mkEnvironment Dim.oneD BC.periodic (1 : ℚ) 1) [9/10] [1/10] = [-1/5] := by
    simp only [get_vectors_between___accounting_for_environment, get_vectors_between,
      List.zipWith, hbc, if_pos rfl, List.map, hscale]
    norm_num [habs, npsign]
  refine periodic_vector_fold_bounded (mkEnvironment Dim.oneD BC.periodic (1 : ℚ) 1)
    [9/10] [1/10] rfl (by rw [hscale]; norm_num) ?_ (-1/5) ?_
  · intro c hc
    simp only [get_vectors_between, List.zipWith] at hc
    rw [List.mem_singleton] at hc
    rw [hc, hscale]
    norm_num [habs]
  · rw [hout]
    exact List.mem_cons_self _ _

/-- C5: `check_if_position_is_in_environment` is a strict interior test:
for a constructed environment it returns true exactly when every
coordinate lies strictly between the corresponding extent bounds (2D:
`(0, aspect*scale)` for x and `(0, scale)` for y; 1D: `(0, scale)`), and
returns false whenever any coordinate equals an extent boundary value. -/
theorem check_position_strict {α : Type} [LinearOrderedField α] (bc : BC) (s a x y : α) :
    (check_if_position_is_in_environment (mkEnvironment Dim.twoD bc s a) [x, y] = true
      ↔ (0 < x ∧ x < a * s ∧ 0 < y ∧ y < s))
    ∧ (check_if_position_is_in_environment (mkEnvironment Dim.oneD bc s a) [x] = true
      ↔ (0 < x ∧ x < s))
    ∧ ((x = 0 ∨ x = a * s ∨ y = 0 ∨ y = s) →
        check_if_position_is_in_environment (mkEnvironment Dim.twoD bc s a) [x, y] = false)
    ∧ ((x = 0 ∨ x = s) →
        check_if_position_is_in_environment (mkEnvironment Dim.oneD bc s a) [x] = false) := by
  have h2 : check_if_position_is_in_environment (mkEnvironment Dim.twoD bc s a) [x, y] = true
      ↔ (0 < x ∧ x < a * s ∧ 0 < y ∧ y < s) := by
    simp [check_if_position_is_in_environment, mkEnvironment, List.getD]
  have h1 : check_if_position_is_in_environment (mkEnvironment Dim.oneD bc s a) [x] = true
      ↔ (0 < x ∧ x < s) := by
    simp [check_if_position_is_in_environment, mkEnvironment, List.getD]
  refine ⟨h2, h1, ?_, ?_⟩
  · intro hedge
    rw [Bool.eq_false_iff, Ne, h2]
    rcases hedge with h | h | h | h <;> rw [h] <;> intro hcon
    · exact lt_irrefl 0 hcon.1
    · exact lt_irrefl (a * s) hcon.2.1
    · exact lt_irrefl 0 hcon.2.2.1
    · exact lt_irrefl s hcon.2.2.2
  · intro hedge
    rw [Bool.eq_false_iff, Ne, h1]
    rcases hedge with h | h <;> rw [h] <;> intro hcon
    · exact lt_irrefl 0 hcon.1
    · exact lt_irrefl s hcon.2

/-- C5 (witness): in a unit square environment, the interior point
`(1/2, 1/2)` tests true via the iff, and the edge points `(1/2, 0)` (2D)
and `1` (1D) test false. -/
theorem check_position_strict_witness :
    check_if_position_is_in_environment
        (mkEnvironment Dim.twoD BC.solid (1 : ℚ) 1) [1/2, 1/2] = true
    ∧ check_if_position_is_in_environment
        (mkEnvironment Dim.twoD BC.solid (1 : ℚ) 1) [1/2, 0] = false
    ∧ check_if_position_is_in_environment
        (mkEnvironment Dim.oneD BC.solid (1 : ℚ) 1) [1] = false :=
  ⟨((check_position_strict BC.solid 1 1 (1/2 : ℚ) (1/2)).1).mpr (by norm_num),
   (check_position_strict BC.solid 1 1 (1/2 : ℚ) 0).2.2.1 (Or.inr (Or.inr (Or.inl rfl))),
   (check_position_strict BC.solid (1 : ℚ) 1 1 0).2.2.2 (Or.inr (by norm_num))⟩

/-- C9: for every position strictly inside the environment
(`check_if_position_is_in_environment` returns true),
`apply_boundary_conditions` returns the position unchanged, under every
dimensionality and boundary condition. -/
theorem apply_boundary_conditions_frame {α : Type} [LinearOrderedField α] [FloorRing α]
    (env : Environment α) (pos : List α)
    (h : check_if_position_is_in_environment env pos = true) :
    apply_boundary_conditions env pos = pos := by
  unfold apply_boundary_conditions
  rw [if_pos h]

/-- C9 (witness): interior points of a 2D periodic and of a 1D solid
environment are returned unchanged. -/
theorem apply_boundary_conditions_frame_witness :
    apply_boundary_conditions (mkEnvironment Dim.twoD BC.periodic (1 : ℚ) 1) [1/2, 1/3]
      = [1/2, 1/3]
    ∧ apply_boundary_conditions (mkEnvironment Dim.oneD BC.solid (1 : ℚ) 1) [1/4] = [1/4] :=
  ⟨apply_boundary_conditions_frame (mkEnvironment Dim.twoD BC.periodic (1 : ℚ) 1)
      [1/2, 1/3] (by norm_num [check_if_position_is_in_environment, mkEnvironment, List.getD]),
   apply_boundary_conditions_frame (mkEnvironment Dim.oneD BC.solid (1 : ℚ) 1)
      [1/4] (by norm_num [check_if_position_is_in_environment, mkEnvironment, List.getD])⟩

/-- C10: a 2D environment constructed with periodic boundary conditions
has an empty wall array, so `check_wall_collisions` returns the no-op
result `(none, none)` for every proposed step; once a wall is explicitly
appended with `add_wall`, the wall list is `[w]` and
`check_wall_collisions` reports that wall with its collision test. -/
theorem periodic_2D_environment_has_no_walls {α : Type} [LinearOrderedField α]
    (s a : α) (step w : Seg α) :
    (mkEnvironment Dim.twoD BC.periodic s a).walls = []
    ∧ check_wall_collisions (mkEnvironment Dim.twoD BC.periodic s a) step = (none, none)
    ∧ add_wall (mkEnvironment Dim.twoD BC.periodic s a) w
        = Except.ok { mkEnvironment Dim.twoD BC.periodic s a with walls := [w] }
    ∧ check_wall_collisions { mkEnvironment Dim.twoD BC.periodic s a with walls := [w] } step
        = (some [w], some [segments_collide w step]) := by
  refine ⟨rfl, rfl, ?_, rfl⟩
  simp [add_wall, mkEnvironment]

/-- Helper: the source marks a pair as obstructed when the sum of the
boolean collision array over the walls axis is nonzero; this is equivalent
to the existence of a colliding wall in the list. -/
theorem indicator_sum_ne_zero_iff {β : Type} (p : β → Bool) (l : List β) :
    ((l.map (fun a => if p a then (1 : ℕ) else 0)).sum ≠ 0) ↔ ∃ a ∈ l, p a = true := by
  induction l with
  | nil => simp
  | cons b t ih =>
      by_cases hb : p b = true
      · simp [hb]
      · simp only [List.map_cons, List.sum_cons, if_neg hb, Nat.zero_add, ih,
          List.mem_cons]
        constructor
        · intro hex
          obtain ⟨a, ha, hpa⟩ := hex
          exact ⟨a, Or.inr ha, hpa⟩
        · intro hex
          obtain ⟨a, ha, hpa⟩ := hex
          rcases ha with rfl | ha
          · exact absurd hpa hb
          · exact ⟨a, ha, hpa⟩

/-- C2: for a 2D solid-boundary environment, the `line_of_sight` distance
equals the (boundary-aware) euclidean distance, except that it is exactly
1000 for a pair whose direct connecting segment collides with at least one
interior wall (the walls from index 4 on; the four bounding walls are
excluded from the collision test).  The second conjunct identifies the
else-branch value with the `euclidean` mode result. -/
theorem line_of_sight_distance_characterization (env : Environment ℝ)
    (pos1 pos2 : List ℝ)
    (hdim : env.dimensionality = Dim.twoD) (hbc : env.boundary_conditions = BC.solid) :
    get_distances_between___accounting_for_environment env pos1 pos2
        WallGeometry.line_of_sight
      = Except.ok (if ∃ w ∈ env.walls.drop 4,
            segments_collide (pl2 pos1, pl2 pos2) w = true then (1000 : ℝ)
          else lnorm (get_vectors_between___accounting_for_environment env pos1 pos2))
    ∧ get_distances_between___accounting_for_environment env pos1 pos2
        WallGeometry.euclidean
      = Except.ok (lnorm (get_vectors_between___accounting_for_environment env pos1 pos2)) := by
  rcases env with ⟨dim, bcc, sc, asp, ext, walls⟩
  simp only at hdim hbc
  subst hdim
  subst hbc
  constructor
  · dsimp only [get_distances_between___accounting_for_environment]
    exact congrArg Except.ok (if_congr (indicator_sum_ne_zero_iff _ _) rfl rfl)
  · rfl

/-- C2 (witness): the hypotheses are satisfiable at the standard 2D solid
unit environment. -/
theorem line_of_sight_distance_characterization_witness :
    get_distances_between___accounting_for_environment
        (mkEnvironment Dim.twoD BC.solid (1 : ℝ) 1) [1/4, 1/2] [3/4, 1/2]
        WallGeometry.line_of_sight
      = Except.ok (if ∃ w ∈ (mkEnvironment Dim.twoD BC.solid (1 : ℝ) 1).walls.drop 4,
            segments_collide (pl2 [1/4, 1/2], pl2 [3/4, 1/2]) w = true then (1000 : ℝ)
          else lnorm (get_vectors_between___accounting_for_environment
            (mkEnvironment Dim.twoD BC.solid (1 : ℝ) 1) [1/4, 1/2] [3/4, 1/2])) :=
  (line_of_sight_distance_characterization (mkEnvironment Dim.twoD BC.solid (1 : ℝ) 1)
    [1/4, 1/2] [3/4, 1/2] rfl rfl).1

/-- C3: for a 2D solid-boundary environment whose wall array holds exactly
the four bounding walls (zero interior walls), the `geodesic` distance
equals the `euclidean` distance, for every position pair. -/
theorem geodesic_equals_euclidean_without_interior_walls (env : Environment ℝ)
    (pos1 pos2 : List ℝ)
    (hdim : env.dimensionality = Dim.twoD) (hbc : env.boundary_conditions = BC.solid)
    (h4 : env.walls.length = 4) :
    get_distances_between___accounting_for_environment env pos1 pos2
        WallGeometry.geodesic
      = get_distances_between___accounting_for_environment env pos1 pos2
        WallGeometry.euclidean := by
  rcases env with ⟨dim, bcc, sc, asp, ext, walls⟩
  simp only at hdim hbc h4
  subst hdim
  subst hbc
  dsimp only [get_distances_between___accounting_for_environment]
  rw [if_pos (by omega : walls.length ≤ 5), if_pos h4]
  exact if_pos rfl

/-- C3 (witness): the standard 2D solid unit environment has exactly the
four bounding walls, so geodesic and euclidean agree there. -/
theorem geodesic_equals_euclidean_without_interior_walls_witness :
    get_distances_between___accounting_for_environment
        (mkEnvironment Dim.twoD BC.solid (1 : ℝ) 1) [1/5, 1/5] [4/5, 3/5]
        WallGeometry.geodesic
      = get_distances_between___accounting_for_environment
        (mkEnvironment Dim.twoD BC.solid (1 : ℝ) 1) [1/5, 1/5] [4/5, 3/5]
        WallGeometry.euclidean :=
  geodesic_equals_euclidean_without_interior_walls
    (mkEnvironment Dim.twoD BC.solid (1 : ℝ) 1) [1/5, 1/5] [4/5, 3/5] rfl rfl rfl

/-- C6: the precondition-violating calls fail with the source's assertion
errors: `add_wall` on a 1D environment; `line_of_sight` or `geodesic`
distance under periodic boundary conditions; `geodesic` with more than 5
walls (more than one interior wall).  Each failing call returns
`Except.error` and no successor state, so in the state-passing embedding
the caller's environment (in particular its wall array) is unchanged; the
assertions run before any mutation, mirroring the source where each
`assert` is executed before the wall array is touched (the distance
queries never mutate the environment at all). -/
theorem precondition_violations_error (env : Environment ℝ) (w : Seg ℝ)
    (pos1 pos2 : List ℝ) :
    (env.dimensionality = Dim.oneD →
      add_wall env w = Except.error "can only add walls into a 2D environment")
    ∧ (env.dimensionality = Dim.twoD → env.boundary_conditions = BC.periodic →
        get_distances_between___accounting_for_environment env pos1 pos2
            WallGeometry.line_of_sight
          = Except.error "line of sight geometry not available for periodic boundary conditions"
        ∧ get_distances_between___accounting_for_environment env pos1 pos2
            WallGeometry.geodesic
          = Except.error "line of sight geometry not available for periodic boundary conditions")
    ∧ (env.dimensionality = Dim.twoD → env.boundary_conditions = BC.solid →
        5 < env.walls.length →
        get_distances_between___accounting_for_environment env pos1 pos2
            WallGeometry.geodesic
          = Except.error "unfortunately geodesic geomtry is only defined in closed rooms with one additional wall") := by
  refine ⟨?_, ?_, ?_⟩
  · intro h1
    unfold add_wall
    rw [h1]
    simp
  · intro h2 hper
    rcases env with ⟨dim, bcc, sc, asp, ext, walls⟩
    simp only at h2 hper
    subst h2
    subst hper
    exact ⟨rfl, rfl⟩
  · intro h2 hsol hlen
    rcases env with ⟨dim, bcc, sc, asp, ext, walls⟩
    simp only at h2 hsol hlen
    subst h2
    subst hsol
    dsimp only [get_distances_between___accounting_for_environment]
    rw [if_neg (by omega : ¬ walls.length ≤ 5)]
    exact if_pos rfl

/-- C6 (witness): the three error cases at concrete environments: a 1D
environment, a 2D periodic environment, and a 2D solid environment with
six walls. -/
theorem precondition_violations_error_witness :
    add_wall (mkEnvironment Dim.oneD BC.solid (1 : ℝ) 1) ((0, 0), (1, 1))
      = Except.error "can only add walls into a 2D environment"
    ∧ get_distances_between___accounting_for_environment
        (mkEnvironment Dim.twoD BC.periodic (1 : ℝ) 1) [0, 0] [1, 1]
        WallGeometry.line_of_sight
      = Except.error "line of sight geometry not available for periodic boundary conditions"
    ∧ get_distances_between___accounting_for_environment
        (mkEnvironment Dim.twoD BC.periodic (1 : ℝ) 1) [0, 0] [1, 1]
        WallGeometry.geodesic
      = Except.error "line of sight geometry not available for periodic boundary conditions"
    ∧ get_distances_between___accounting_for_environment
        { mkEnvironment Dim.twoD BC.solid (1 : ℝ) 1 with
            walls := (mkEnvironment Dim.twoD BC.solid (1 : ℝ) 1).walls
              ++ [((0, 0), (1, 1)), ((0, 0), (1, 0))] } [0, 0] [1, 1]
        WallGeometry.geodesic
      = Except.error "unfortunately geodesic geomtry is only defined in closed rooms with one additional wall" :=
  ⟨(precondition_violations_error (mkEnvironment Dim.oneD BC.solid (1 : ℝ) 1)
      ((0, 0), (1, 1)) [0, 0] [1, 1]).1 rfl,
   ((precondition_violations_error (mkEnvironment Dim.twoD BC.periodic (1 : ℝ) 1)
      ((0, 0), (1, 1)) [0, 0] [1, 1]).2.1 rfl rfl).1,
   ((precondition_violations_error (mkEnvironment Dim.twoD BC.periodic (1 : ℝ) 1)
      ((0, 0), (1, 1)) [0, 0] [1, 1]).2.1 rfl rfl).2,
   (precondition_violations_error
      { mkEnvironment Dim.twoD BC.solid (1 : ℝ) 1 with
          walls := (mkEnvironment Dim.twoD BC.solid (1 : ℝ) 1).walls
            ++ [((0, 0), (1, 1)), ((0, 0), (1, 0))] }
      ((0, 0), (1, 1)) [0, 0] [1, 1]).2.2 rfl rfl (by norm_num [mkEnvironment])⟩

/-- Helper: `pl2` on a two-element list. -/
theorem pl2_pair (x y : ℝ) : pl2 [x, y] = (x, y) := rfl

/-- Helper: `lnorm` of a two-element list is the square root of the 2-d
squared norm. -/
theorem lnorm_pair (x y : ℝ) : lnorm [x, y] = Real.sqrt (norm2 (x, y)) := by
  simp [lnorm, norm2]

/-- Helper: `norm2` of the 2-d point read back from the component list of a
2-d point. -/
theorem norm2_pl2_components (a : ℝ × ℝ) : norm2 (pl2 [a.1, a.2]) = norm2 a := rfl

/-- Helper (core of the reflection argument): for a nonzero direction `p`
and `q` equal to its perpendicular up to sign, the recombination
`(u . p_hat) p_hat - (u . q_hat) q_hat` of unit vectors `p_hat`, `q_hat`
has the same squared norm as `u`. -/
theorem reflect_norm2_pair (u p q : ℝ × ℝ)
    (hq : q = get_perpendicular p ∨ q = pneg (get_perpendicular p))
    (hS : 0 < norm2 p) :
    norm2 (psub
      (psmul (pdot u (pdiv p (Real.sqrt (norm2 p)))) (pdiv p (Real.sqrt (norm2 p))))
      (psmul (pdot u (pdiv q (Real.sqrt (norm2 q)))) (pdiv q (Real.sqrt (norm2 q)))))
      = norm2 u := by
  obtain ⟨p1, p2⟩ := p
  obtain ⟨u1, u2⟩ := u
  have hq2 : norm2 q = norm2 (p1, p2) := by
    rcases hq with rfl | rfl <;> simp [norm2, get_perpendicular, pneg] <;> ring
  have hSx : (0 : ℝ) < p1 ^ 2 + p2 ^ 2 := hS
  have hn2 : Real.sqrt (norm2 (p1, p2)) ^ 2 = p1 ^ 2 + p2 ^ 2 := Real.sq_sqrt hS.le
  have hn0 : Real.sqrt (norm2 (p1, p2)) ≠ 0 := ne_of_gt (Real.sqrt_pos.mpr hS)
  rw [hq2]
  set n := Real.sqrt (norm2 (p1, p2)) with hn
  have h4 : n ^ 4 = (p1 ^ 2 + p2 ^ 2) ^ 2 := by
    rw [show n ^ 4 = (n ^ 2) ^ 2 from by ring, hn2]
  rcases hq with rfl | rfl
  · dsimp only [norm2, psub, psmul, pdot, pdiv, get_perpendicular, pneg]
    field_simp
    linear_combination (-(u1 ^ 2 + u2 ^ 2) * n ^ 6) * h4
  · dsimp only [norm2, psub, psmul, pdot, pdiv, get_perpendicular, pneg]
    field_simp
    linear_combination (-(u1 ^ 2 + u2 ^ 2)) * h4

/-- Helper: `wall_bounce` preserves the squared norm of the incoming
velocity whenever the wall has distinct endpoints. -/
theorem wall_bounce_norm2 (v : List ℝ) (wall : Seg ℝ) (hw : wall.2 ≠ wall.1) :
    norm2 (pl2 (wall_bounce v wall)) = norm2 (pl2 v) := by
  obtain ⟨⟨a1, a2⟩, b1, b2⟩ := wall
  have hW : ¬ (b1 - a1 = 0 ∧ b2 - a2 = 0) := by
    rintro ⟨h1, h2⟩
    exact hw (by
      simp only [Prod.mk.injEq]
      constructor <;> linarith)
  have hS : (0 : ℝ) < (b1 - a1) ^ 2 + (b2 - a2) ^ 2 := by
    rcases not_and_or.mp hW with h | h
    · nlinarith [sq_nonneg (b2 - a2), sq_pos_of_ne_zero h]
    · nlinarith [sq_nonneg (b1 - a1), sq_pos_of_ne_zero h]
  unfold wall_bounce
  dsimp only
  rw [norm2_pl2_components]
  apply reflect_norm2_pair
  · rcases le_or_lt (pdot (psub (b1, b2) (a1, a2)) (pl2 v)) 0 with hpar | hpar <;>
      rcases le_or_lt (pdot (get_perpendicular (psub (b1, b2) (a1, a2))) (pl2 v)) 0
        with hperp | hperp
    · rw [if_pos hpar, if_pos hperp]
      left
      rfl
    · rw [if_pos hpar, if_neg (not_le.mpr hperp)]
      right
      simp [get_perpendicular, pneg, psub]
    · rw [if_neg (not_le.mpr hpar), if_pos hperp]
      right
      rfl
    · rw [if_neg (not_le.mpr hpar), if_neg (not_le.mpr hperp)]
      left
      rfl
  · rcases le_or_lt (pdot (psub (b1, b2) (a1, a2)) (pl2 v)) 0 with hpar | hpar
    · rw [if_pos hpar]
      show (0 : ℝ) < (-(b1 - a1)) ^ 2 + (-(b2 - a2)) ^ 2
      calc (0 : ℝ) < (b1 - a1) ^ 2 + (b2 - a2) ^ 2 := hS
        _ = (-(b1 - a1)) ^ 2 + (-(b2 - a2)) ^ 2 := by ring
    · rw [if_neg (not_le.mpr hpar)]
      exact hS

/-- C7: for every (nonzero) incoming velocity and every wall with distinct
endpoints, `wall_bounce` preserves the euclidean norm of the velocity
(reflection preserves speed, before the post-bounce rescaling that
`Agent.update` applies). -/
theorem wall_bounce_preserves_speed (v1 v2 : ℝ) (wall : Seg ℝ)
    (hv : ¬ (v1 = 0 ∧ v2 = 0)) (hw : wall.2 ≠ wall.1) :
    lnorm (wall_bounce [v1, v2] wall) = lnorm [v1, v2] := by
  have h2 := wall_bounce_norm2 [v1, v2] wall hw
  obtain ⟨w1, w2, hww⟩ : ∃ w1 w2, wall_bounce [v1, v2] wall = [w1, w2] := ⟨_, _, rfl⟩
  rw [hww] at h2 ⊢
  rw [lnorm_pair, lnorm_pair]
  rw [pl2_pair, pl2_pair] at h2
  exact congrArg Real.sqrt h2

/-- C7 (witness): the velocity `(1, 0)` reflected off the vertical wall
from `(0,0)` to `(0,1)` keeps its speed. -/
theorem wall_bounce_preserves_speed_witness :
    lnorm (wall_bounce [1, 0] (((0 : ℝ), (0 : ℝ)), ((0 : ℝ), (1 : ℝ))))
      = lnorm [(1 : ℝ), 0] :=
  wall_bounce_preserves_speed 1 0 (((0 : ℝ), (0 : ℝ)), ((0 : ℝ), (1 : ℝ)))
    (by norm_num) (by simp [Prod.ext_iff])

/-- Helper: `lnorm` of a rescaled 2-d component list. -/
theorem lnorm_lsmul_pair (c x y : ℝ) : lnorm (lsmul c [x, y]) = |c| * lnorm [x, y] := by
  show lnorm [c * x, c * y] = |c| * lnorm [x, y]
  rw [lnorm_pair, lnorm_pair]
  rw [show norm2 (c * x, c * y) = c ^ 2 * norm2 (x, y) from by
    simp only [norm2]
    ring]
  rw [Real.sqrt_mul (sq_nonneg c), Real.sqrt_sq_eq_abs]

/-- Helper: `check_wall_collisions` on a 2D environment with a nonempty
wall list returns the wall list and the per-wall collision booleans. -/
theorem check_wall_collisions_twoD {α : Type} [LinearOrderedField α]
    (env : Environment α) (s : Seg α)
    (hdim : env.dimensionality = Dim.twoD) (hW : env.walls ≠ []) :
    check_wall_collisions env s
      = (some env.walls, some (env.walls.map (fun w => segments_collide w s))) := by
  rcases env with ⟨dim, bcc, sc, asp, ext, walls⟩
  simp only at hdim hW
  subst hdim
  dsimp only [check_wall_collisions]
  rw [if_neg (fun h => hW (List.length_eq_zero.mp h))]

/-- Helper: `getD` commutes with `map` when the defaults correspond. -/
theorem getD_map_getD {β γ : Type} (f : β → γ) (l : List β) (j : ℕ) (d : β) :
    (l.map f).getD j (f d) = f (l.getD j d) := by
  induction l generalizing j with
  | nil => rfl
  | cons b t ih =>
      cases j with
      | zero => rfl
      | succ k =>
          rw [List.map_cons, List.getD_cons_succ, List.getD_cons_succ]
          exact ih k

/-- Helper: if `true` occurs in a boolean list, the entry at
`findIdx (fun b => b)` (the source's `argwhere(...)[0][0]`) is `true`. -/
theorem findIdx_true_mem (l : List Bool) (h : true ∈ l) :
    l.getD (l.findIdx (fun b => b)) false = true := by
  induction l with
  | nil => simp at h
  | cons b t ih =>
      cases b
      · have h' : true ∈ t := by simpa using h
        rw [List.findIdx_cons]
        simp only [cond_false]
        rw [List.getD_cons_succ]
        exact ih h'
      · rw [List.findIdx_cons]
        simp only [cond_true]
        rfl

/-- Helper: every entry before `findIdx (fun b => b)` is `false`: the
source's `argwhere(...)[0][0]` is the FIRST true index in storage order. -/
theorem findIdx_prior_false (l : List Bool) (j : ℕ)
    (hj : j < l.findIdx (fun b => b)) : l.getD j false = false := by
  induction l generalizing j with
  | nil =>
      rw [List.findIdx_nil] at hj
      omega
  | cons b t ih =>
      cases b
      · cases j with
        | zero => rfl
        | succ k =>
            rw [List.findIdx_cons] at hj
            simp only [cond_false] at hj
            rw [List.getD_cons_succ]
            exact ih k (by omega)
      · rw [List.findIdx_cons] at hj
        simp only [cond_true] at hj
        omega

/-- Helper: a collision reported by `segments_collide` implies both
segments are nondegenerate (a degenerate segment gives a zero denominator,
hence path parameter 0, which the strict test rejects). -/
theorem collide_imp_nondegenerate {α : Type} [LinearOrderedField α] (a b : Seg α)
    (h : segments_collide a b = true) : a.2 ≠ a.1 ∧ b.2 ≠ b.1 := by
  simp only [segments_collide, decide_eq_true_eq] at h
  obtain ⟨h1, h2, h3, h4⟩ := h
  constructor
  · intro he
    simp only [intercept_parameters, psub, pdot, pneg, get_perpendicular] at h1
    rw [he] at h1
    simp at h1
  · intro he
    simp only [intercept_parameters, psub, pdot, pneg, get_perpendicular] at h1
    rw [he] at h1
    simp at h1

/-- Helper: the degenerate zero wall never collides. -/
theorem degenerate_wall_no_collision (b : Seg ℝ) :
    segments_collide (((0 : ℝ), (0 : ℝ)), ((0 : ℝ), (0 : ℝ))) b = false := by
  simp [segments_collide, intercept_parameters, psub, pdot, pneg, get_perpendicular]

/-- C4: when the proposed step `[pos, pos + velocity*dt]` of the 2D
stochastic policy collides with one or more walls, the collision stage of
`Agent.update` (embedded as `collision_update`, which `Agent.update`
calls) selects the first colliding wall `w` in wall-storage order (index
`i = argwhere(collisions)[0][0]`; every wall before `i` does not collide),
reflects the velocity about `w` with `wall_bounce`, rescales the reflected
velocity to `v'` with norm exactly `0.5 * speed_mean`, and advances the
position to exactly `pos + v'*dt` - no second collision test is applied to
the post-reflection segment, as the returned position is unconditionally
`pos + v'*dt`. -/
theorem update_collision_branch (env : Environment ℝ) (speed_mean dt : ℝ)
    (pos velocity : List ℝ) (x y v1 v2 : ℝ) (i : ℕ) (w : Seg ℝ) (v' : List ℝ)
    (hpos : pos = [x, y]) (hvel : velocity = [v1, v2])
    (hdim : env.dimensionality = Dim.twoD)
    (hW : env.walls ≠ [])
    (hdt : dt ≠ 0) (hsm : 0 ≤ speed_mean)
    (hcol : true ∈ env.walls.map
      (fun wl => segments_collide wl (pl2 pos, pl2 (step_add pos velocity dt))))
    (hi : i = (env.walls.map
      (fun wl => segments_collide wl (pl2 pos, pl2 (step_add pos velocity dt)))).findIdx
        (fun b => b))
    (hw : w = env.walls.getD i (((0 : ℝ), (0 : ℝ)), ((0 : ℝ), (0 : ℝ))))
    (hv' : v' = lsmul (0.5 * speed_mean / lnorm (wall_bounce velocity w))
      (wall_bounce velocity w)) :
    segments_collide w (pl2 pos, pl2 (step_add pos velocity dt)) = true
    ∧ (∀ j, j < i → segments_collide
        (env.walls.getD j (((0 : ℝ), (0 : ℝ)), ((0 : ℝ), (0 : ℝ))))
        (pl2 pos, pl2 (step_add pos velocity dt)) = false)
    ∧ collision_update env speed_mean dt pos velocity = (step_add pos v' dt, v')
    ∧ lnorm v' = 0.5 * speed_mean := by
  have hwcol : segments_collide w (pl2 pos, pl2 (step_add pos velocity dt)) = true := by
    have e1 := getD_map_getD
      (fun wl => segments_collide wl (pl2 pos, pl2 (step_add pos velocity dt)))
      env.walls i (((0 : ℝ), (0 : ℝ)), ((0 : ℝ), (0 : ℝ)))
    simp only at e1
    rw [degenerate_wall_no_collision] at e1
    rw [hw, ← e1, hi]
    exact findIdx_true_mem _ hcol
  have hprior : ∀ j, j < i → segments_collide
      (env.walls.getD j (((0 : ℝ), (0 : ℝ)), ((0 : ℝ), (0 : ℝ))))
      (pl2 pos, pl2 (step_add pos velocity dt)) = false := by
    intro j hj
    rw [hi] at hj
    have e1 := getD_map_getD
      (fun wl => segments_collide wl (pl2 pos, pl2 (step_add pos velocity dt)))
      env.walls j (((0 : ℝ), (0 : ℝ)), ((0 : ℝ), (0 : ℝ)))
    simp only at e1
    rw [degenerate_wall_no_collision] at e1
    rw [← e1]
    exact findIdx_prior_false _ j hj
  have hnd := collide_imp_nondegenerate w (pl2 pos, pl2 (step_add pos velocity dt)) hwcol
  have hvne : ¬ (v1 = 0 ∧ v2 = 0) := by
    rintro ⟨h1, h2⟩
    apply hnd.2
    show pl2 (step_add pos velocity dt) = pl2 pos
    rw [hpos, hvel, h1, h2]
    show ((x + 0 * dt, y + 0 * dt) : ℝ × ℝ) = (x, y)
    norm_num
  obtain ⟨w1, w2, hww⟩ : ∃ w1 w2, wall_bounce velocity w = [w1, w2] := ⟨_, _, rfl⟩
  have hb2 : norm2 (w1, w2) = norm2 (pl2 velocity) := by
    have := wall_bounce_norm2 velocity w hnd.1
    rw [hww, pl2_pair] at this
    exact this
  have hvpos : (0 : ℝ) < norm2 (pl2 velocity) := by
    rw [hvel, pl2_pair]
    rcases not_and_or.mp hvne with h | h
    · have : (0 : ℝ) < v1 ^ 2 := sq_pos_of_ne_zero h
      show (0 : ℝ) < v1 ^ 2 + v2 ^ 2
      nlinarith [sq_nonneg v2]
    · have : (0 : ℝ) < v2 ^ 2 := sq_pos_of_ne_zero h
      show (0 : ℝ) < v1 ^ 2 + v2 ^ 2
      nlinarith [sq_nonneg v1]
  have hbpos : 0 < lnorm (wall_bounce velocity w) := by
    rw [hww, lnorm_pair]
    exact Real.sqrt_pos.mpr (hb2 ▸ hvpos)
  have hnorm : lnorm v' = 0.5 * speed_mean := by
    rw [hv', hww, lnorm_lsmul_pair]
    rw [hww] at hbpos
    have hL : lnorm [w1, w2] ≠ 0 := ne_of_gt hbpos
    rw [abs_of_nonneg (div_nonneg (by linarith) hbpos.le)]
    exact div_mul_cancel₀ _ hL
  refine ⟨hwcol, hprior, ?_, hnorm⟩
  have hcw := check_wall_collisions_twoD env
    (pl2 pos, pl2 (step_add pos velocity dt)) hdim hW
  simp only [collision_update]
  rw [hcw]
  simp only
  rw [if_pos hcol]
  rw [← hi, Option.getD_some, ← hw, ← hv']

/-- C4 (witness): in the 2D solid unit environment, the step from
`(1/2, 1/2)` with velocity `(-1, 0)` and `dt = 1` crosses the left
bounding wall (the first wall, index 0); the theorem applies, giving the
reflected, rescaled velocity `(1/2, 0)` of norm exactly `0.5 * 1`. -/
theorem update_collision_branch_witness :
    segments_collide (((0 : ℝ), (0 : ℝ)), ((0 : ℝ), (1 : ℝ)))
        (pl2 [(1 : ℝ)/2, 1/2], pl2 (step_add [(1 : ℝ)/2, 1/2] [-1, 0] 1)) = true
    ∧ collision_update (mkEnvironment Dim.twoD BC.solid (1 : ℝ) 1) 1 1
        [1/2, 1/2] [-1, 0]
      = (step_add [(1 : ℝ)/2, 1/2] [1/2, 0] 1, [(1 : ℝ)/2, 0])
    ∧ lnorm [(1 : ℝ)/2, 0] = 0.5 * 1 := by
  have hc0 : segments_collide (((0 : ℝ), (0 : ℝ)), ((0 : ℝ), (1 : ℝ)))
      (pl2 [(1 : ℝ)/2, 1/2], pl2 (step_add [(1 : ℝ)/2, 1/2] [-1, 0] 1)) = true := by
    norm_num [segments_collide, intercept_parameters, psub, pdot, pneg,
      get_perpendicular, pl2, step_add]
  have hv' : [(1 : ℝ)/2, 0]
      = lsmul (0.5 * 1 / lnorm (wall_bounce [-1, 0] (((0 : ℝ), (0 : ℝ)), ((0 : ℝ), (1 : ℝ)))))
        (wall_bounce [-1, 0] (((0 : ℝ), (0 : ℝ)), ((0 : ℝ), (1 : ℝ)))) := by
    have hwb : wall_bounce [-1, 0] (((0 : ℝ), (0 : ℝ)), ((0 : ℝ), (1 : ℝ)))
        = [(1 : ℝ), 0] := by
      norm_num [wall_bounce, psub, pneg, pdot, pdiv, psmul, get_perpendicular, pl2,
        norm2, Real.sqrt_one]
    rw [hwb]
    have h1 : lnorm [(1 : ℝ), 0] = 1 := by
      rw [lnorm_pair]
      norm_num [norm2, Real.sqrt_one]
    rw [h1]
    norm_num [lsmul]
  have hmain := update_collision_branch (mkEnvironment Dim.twoD BC.solid (1 : ℝ) 1)
    1 1 [1/2, 1/2] [-1, 0] (1/2) (1/2) (-1) 0 0
    (((0 : ℝ), (0 : ℝ)), ((0 : ℝ), (1 : ℝ))) [(1 : ℝ)/2, 0]
    rfl rfl rfl (by simp [mkEnvironment]) (by norm_num) (by norm_num)
    (by
      show true ∈ List.map _ (mkEnvironment Dim.twoD BC.solid (1 : ℝ) 1).walls
      rw [show (mkEnvironment Dim.twoD BC.solid (1 : ℝ) 1).walls
        = (((0 : ℝ), (0 : ℝ)), ((0 : ℝ), (1 : ℝ)))
          :: [(((0 : ℝ), (1 : ℝ)), ((1 : ℝ), (1 : ℝ))),
              (((1 : ℝ), (1 : ℝ)), ((1 : ℝ), (0 : ℝ))),
              (((1 : ℝ), (0 : ℝ)), ((0 : ℝ), (0 : ℝ)))] from by
          simp [mkEnvironment]]
      rw [List.map_cons, hc0]
      exact List.mem_cons_self _ _)
    (by
      rw [show (mkEnvironment Dim.twoD BC.solid (1 : ℝ) 1).walls
        = (((0 : ℝ), (0 : ℝ)), ((0 : ℝ), (1 : ℝ)))
          :: [(((0 : ℝ), (1 : ℝ)), ((1 : ℝ), (1 : ℝ))),
              (((1 : ℝ), (1 : ℝ)), ((1 : ℝ), (0 : ℝ))),
              (((1 : ℝ), (0 : ℝ)), ((0 : ℝ), (0 : ℝ)))] from by
          simp [mkEnvironment]]
      rw [List.map_cons, List.findIdx_cons, hc0]
      rfl)
    (by
      rw [show (mkEnvironment Dim.twoD BC.solid (1 : ℝ) 1).walls
        = (((0 : ℝ), (0 : ℝ)), ((0 : ℝ), (1 : ℝ)))
          :: [(((0 : ℝ), (1 : ℝ)), ((1 : ℝ), (1 : ℝ))),
              (((1 : ℝ), (1 : ℝ)), ((1 : ℝ), (0 : ℝ))),
              (((1 : ℝ), (0 : ℝ)), ((0 : ℝ), (0 : ℝ)))] from by
          simp [mkEnvironment]]
      rfl)
    hv'
  exact ⟨hmain.1, hmain.2.2.1, hmain.2.2.2⟩

/-- Helper: the history written by one call of `Agent.update` extends each
of the caller's history lists by exactly one appended element (`rot_vel`
only when the environment is 2D). -/
theorem update_history_shape (env : Environment ℝ) (p : AgentParams)
    (o : ExternalFunctions) (s : AgentState) (u : UpdateInputs) :
    ∃ tv pv vv rv, (Agent.update env p o s u).history
      = { t := s.history.t ++ [tv]
          pos := s.history.pos ++ [pv]
          vel := s.history.vel ++ [vv]
          rot_vel := if env.dimensionality = Dim.twoD then s.history.rot_vel ++ [rv]
                     else s.history.rot_vel } :=
  ⟨_, _, _, _, rfl⟩

/-- C8: every call of `Agent.update` appends exactly one entry to each of
the history lists `t`, `pos` and `vel`, and exactly one entry to
`rot_vel` when the environment is 2D (none otherwise), in every mode
(stochastic 2D, stochastic 1D, imported trajectory); hence lists of equal
length stay of equal length after every update. -/
theorem update_appends_one_history_entry (env : Environment ℝ) (p : AgentParams)
    (o : ExternalFunctions) (s : AgentState) (u : UpdateInputs) :
    (Agent.update env p o s u).history.t.length = s.history.t.length + 1
    ∧ (Agent.update env p o s u).history.pos.length = s.history.pos.length + 1
    ∧ (Agent.update env p o s u).history.vel.length = s.history.vel.length + 1
    ∧ (Agent.update env p o s u).history.rot_vel.length
        = s.history.rot_vel.length
          + (if env.dimensionality = Dim.twoD then 1 else 0) := by
  obtain ⟨tv, pv, vv, rv, hh⟩ := update_history_shape env p o s u
  rw [hh]
  refine ⟨by simp, by simp, by simp, ?_⟩
  by_cases hd : env.dimensionality = Dim.twoD
  · rw [if_pos hd, if_pos hd]
    simp
  · rw [if_neg hd, if_neg hd]
    simp

end RatInABox
